import Mathlib

/-!
# Verification of the demovoice voice-extraction core

Shallow embedding of the voice-stream reconstruction engine of the
`demovoice` repository (the `package decoder` section of the source),
together with the extraction-pipeline fan-out, the run-identity logic of the
HTTP handlers, and proofs of the testable properties stated in the
specification.

Embedding conventions:
* raw bytes are `Nat` values; wherever the Go code assembles multi-byte
  integers, the assembly takes each byte modulo 256, so the Lean functions
  agree with the Go functions on every byte sequence Go can represent;
* the external Opus codec primitive (out of scope of the spec) is
  represented symbolically: a successful `DecodeFloat32` call yields the
  block `PCMBlock.decoded payload`, and one `DecodePLCFloat32` call yields
  the block `PCMBlock.concealed`, so the produced block list is in
  one-to-one correspondence with the sequence of codec invocations;
* fallible paths return an explicit outcome; the run-time panic that Go's
  `make([]byte, n)` raises for negative `n` is the outcome
  `DecodeOutcome.panicked`.
-/

namespace Demovoice

/-- One decoded PCM sample block, identified symbolically: `decoded payload`
is the result of one successful `DecodeFloat32` call on `payload`
(`decodeSteamChunk` in the source), `concealed` is the 480-sample block of
one `DecodePLCFloat32` call (one loss-concealment frame). -/
inductive PCMBlock where
  | decoded (payload : List Nat)
  | concealed
deriving DecidableEq, Repr

/-- The error values `OpusDecoder.Decode` can return from its framing logic:
`readErr` is a failed `binary.Read` (fewer than two bytes remained for the
`int16` length or the `uint16` frame index), `ioEOF` is the `io.EOF` that
`bytes.Buffer.Read` returns when a positive-length payload is requested from
an exhausted buffer, `invalidVoicePacket` is `ErrInvalidVoicePacket`
(payload shorter than the declared length). -/
inductive DecodeError where
  | readErr
  | ioEOF
  | invalidVoicePacket
deriving DecidableEq, Repr

/-- Outcome of `OpusDecoder.Decode`. Both `ok` and `err` carry the
`currentFrame` field of the receiver after the call, because the Go method
mutates `d.currentFrame` in place while looping and an error return leaves
the mutations made so far in effect. `panicked` is the run-time panic of
`make([]byte, chunkLen)` on a negative length. -/
inductive DecodeOutcome where
  | ok (output : List PCMBlock) (currentFrame : Nat)
  | err (e : DecodeError) (currentFrame : Nat)
  | panicked
deriving DecidableEq, Repr

/-- Little-endian `int16` read: the value `binary.Read(buf, LittleEndian,
&chunkLen)` assembles from two bytes. -/
def int16OfBytes (b0 b1 : Nat) : Int :=
  let u : Nat := b0 % 256 + 256 * (b1 % 256)
  if u < 32768 then (u : Int) else (u : Int) - 65536

/-- Little-endian `uint16` read, as used for the `frameIndex` field. -/
def uint16OfBytes (b0 b1 : Nat) : Nat :=
  b0 % 256 + 256 * (b1 % 256)

/-- Result of consuming one framed record from the front of a buffer,
mirroring one iteration of the loop body of `OpusDecoder.Decode`
(faceit.go, `package decoder` section): read `length` (int16 LE); on `-1`
reset; read `frameIndex` (uint16 LE); allocate `length` bytes (panic when
negative); read the payload, `io.EOF` when the buffer is exhausted,
`ErrInvalidVoicePacket` when it is shorter than declared. -/
inductive RecordParse where
  | readErr
  | reset
  | negLen
  | eofErr
  | invalid
  | record (frameIndex : Nat) (chunk : List Nat) (rest : List Nat)
deriving DecidableEq, Repr

/-- Parse one record from the front of the buffer, in exactly the order the
Go loop body performs its reads and checks. -/
def parseRecord : List Nat → RecordParse
  | b0 :: b1 :: rest =>
    let chunkLen : Int := int16OfBytes b0 b1
    if chunkLen = -1 then
      .reset
    else
      match rest with
      | f0 :: f1 :: rest2 =>
        let frameIndex := uint16OfBytes f0 f1
        if chunkLen < 0 then
          .negLen
        else
          let n := chunkLen.toNat
          if 0 < n ∧ rest2 = [] then
            .eofErr
          else if rest2.length < n then
            .invalid
          else
            .record frameIndex (rest2.take n) (rest2.drop n)
      | _ => .readErr
  | _ => .readErr

namespace OpusDecoder

/-- `OpusDecoder.decodeSteamChunk`: one `DecodeFloat32` call on the payload,
yielding one decoded block. -/
def decodeSteamChunk (b : List Nat) : PCMBlock :=
  PCMBlock.decoded b

/-- `OpusDecoder.decodeLoss`: `min(samples, 10)` successive
`DecodePLCFloat32` calls, each appending one 480-sample concealment frame. -/
def decodeLoss (samples : Nat) : List PCMBlock :=
  List.replicate (min samples 10) PCMBlock.concealed

/-- The frame-index comparison of the loop body: given the speaker state
`previousFrame` (the receiver's `currentFrame`) and a parsed record, return
the new state and the blocks appended for this record.
`frameIndex == previousFrame`: decode and advance (uint16 increment);
`frameIndex > previousFrame`: conceal `min(gap, 10)` frames, state kept;
`frameIndex < previousFrame`: discard silently. -/
def frameStep (previousFrame frameIndex : Nat) (chunk : List Nat) :
    Nat × List PCMBlock :=
  if frameIndex ≥ previousFrame then
    if frameIndex = previousFrame then
      ((frameIndex + 1) % 65536, [decodeSteamChunk chunk])
    else
      (previousFrame, decodeLoss (frameIndex - previousFrame))
  else
    (previousFrame, [])

/-- `rest` returned by a successful `parseRecord` is strictly shorter than
the input buffer (at least the four header bytes are consumed); needed for
termination of the decode loop. -/
theorem parseRecord_rest_lt {buf : List Nat} {cf : Nat} {chunk rest : List Nat}
    (h : parseRecord buf = .record cf chunk rest) : rest.length < buf.length := by
  match buf with
  | [] => simp [parseRecord] at h
  | [b0] => simp [parseRecord] at h
  | b0 :: b1 :: tail =>
    unfold parseRecord at h
    by_cases h1 : int16OfBytes b0 b1 = -1
    · simp [h1] at h
    · simp only [h1, if_false] at h
      match tail with
      | [] => simp at h
      | [f0] => simp at h
      | f0 :: f1 :: rest2 =>
        simp only at h
        split at h
        · exact absurd h (by simp)
        · split at h
          · exact absurd h (by simp)
          · split at h
            · exact absurd h (by simp)
            · rw [RecordParse.record.injEq] at h
              obtain ⟨_, _, h3⟩ := h
              subst h3
              simp only [List.length_cons, List.length_drop]
              omega

/-- The record-by-record loop of `OpusDecoder.Decode`: while the buffer is
nonempty, parse one record; `length == -1` resets `currentFrame` to 0 and
breaks out; parse failures abort with the state mutated so far; otherwise
apply the frame-index comparison and continue on the remaining bytes. -/
def decodeLoop (st : Nat) (buf : List Nat) : DecodeOutcome :=
  if _h : buf = [] then
    .ok [] st
  else
    match hp : parseRecord buf with
    | .readErr => .err .readErr st
    | .reset => .ok [] 0
    | .negLen => .panicked
    | .eofErr => .err .ioEOF st
    | .invalid => .err .invalidVoicePacket st
    | .record cf chunk rest =>
      let s := frameStep st cf chunk
      match decodeLoop s.1 rest with
      | .ok out fin => .ok (s.2 ++ out) fin
      | .err e fin => .err e fin
      | .panicked => .panicked
termination_by buf.length
decreasing_by exact parseRecord_rest_lt hp

/-- `OpusDecoder.Decode`: decode one RawChunk under the chunked wire format,
starting from the receiver's `currentFrame` value `st`. A fresh decoder
(`NewOpusDecoder`) starts with `currentFrame = 0`. -/
def Decode (st : Nat) (b : List Nat) : DecodeOutcome :=
  decodeLoop st b

end OpusDecoder

/-- The byte encoding of one well-formed framed record: `length` (int16 LE),
`frameIndex` (uint16 LE), then `length` payload bytes. -/
def recordBytes (payload : List Nat) (frameIndex : Nat) : List Nat :=
  payload.length % 256 :: payload.length / 256 % 256 ::
    frameIndex % 256 :: frameIndex / 256 % 256 :: payload

/-- Prefix some produced blocks onto the output of the remaining loop
iterations: an error or panic downstream discards the output, exactly as the
Go method returns `nil` together with the error. -/
def prependOutput (blocks : List PCMBlock) : DecodeOutcome → DecodeOutcome
  | .ok out fin => .ok (blocks ++ out) fin
  | .err e fin => .err e fin
  | .panicked => .panicked

/-! ## Extraction pipeline (src/unnamed/part_001)

`convertAudioDataToWavFilesOptimized` processes all RawChunks of one
chunked-format ("STEAM") speaker through one `OpusDecoder`, accumulating the
PCM; a per-chunk decode error is logged and the chunk skipped; the function
itself only fails on decoder-creation or file-system errors, which are
external. `opusToWavOptimized` processes an unchunked-format ("OPUS")
speaker, one package-level `Decode` call per RawChunk. -/

/-- Modelled from the spec: `decoder.DecodeChunk` is called by the pipeline
(part_001, `convertAudioDataToWavFilesOptimized`) but its definition is not
under src/. Per §4.1 of the spec a RawChunk's bytes directly contain the
framed records handed to the Frame Protocol Decoder, so the extraction step
is modelled as yielding the RawChunk's bytes unchanged. -/
def DecodeChunk (payload : List Nat) : Option (List Nat) :=
  some payload

/-- The per-speaker loop of `convertAudioDataToWavFilesOptimized`: thread
the decoder state through the RawChunks in arrival order; a chunk whose
extraction fails or whose decode errors is logged (counted) and skipped; a
silent chunk (empty data) is skipped without an error; a panic aborts the
whole job (`none`). Returns the concatenated PCM blocks and the number of
logged per-chunk errors. -/
def convertLoop : Nat → List (List Nat) → Option (List PCMBlock × Nat)
  | _, [] => some ([], 0)
  | st, payload :: rest =>
    match DecodeChunk payload with
    | none => (convertLoop st rest).map fun p => (p.1, p.2 + 1)
    | some data =>
      if data.isEmpty then
        convertLoop st rest
      else
        match OpusDecoder.Decode st data with
        | .ok out st' => (convertLoop st' rest).map fun p => (out ++ p.1, p.2)
        | .err _ st' => (convertLoop st' rest).map fun p => (p.1, p.2 + 1)
        | .panicked => none

/-- `convertAudioDataToWavFilesOptimized`: one chunked-format speaker job,
starting from a fresh decoder (`NewOpusDecoder(24000, 1)`,
`currentFrame = 0`). The Go function returns `nil` (success) on this path
regardless of how many chunks were skipped. -/
def convertAudioDataToWavFilesOptimized (payloads : List (List Nat)) :
    Option (List PCMBlock × Nat) :=
  convertLoop 0 payloads

namespace decoder

/-- Package-level `decoder.Decode`: one `DecodeFloat32` call on one complete
compressed frame — the unchunked wire format has no record framing, no
sequence numbers and no loss handling. -/
def Decode (data : List Nat) : PCMBlock :=
  PCMBlock.decoded data

end decoder

/-- `opusToWavOptimized`: one unchunked-format speaker job; one
`decoder.Decode` call per RawChunk, in arrival order. -/
def opusToWavOptimized : List (List Nat) → List PCMBlock
  | [] => []
  | d :: ds => decoder.Decode d :: opusToWavOptimized ds

/-- Per-speaker dispatch of `processVoiceDataParallel`: every speaker's job
runs on its own fresh decoder and consumes only that speaker's buffered
chunks (chunked format shown; the jobs are data-independent). -/
def processVoiceDataParallel (speakers : List (String × List (List Nat))) :
    List (String × Option (List PCMBlock × Nat)) :=
  speakers.map fun s => (s.1, convertAudioDataToWavFilesOptimized s.2)

/-- Worker sizing of `processVoiceDataParallel` in the optimized variants
(part_001 lines 161-169 and 711-715): all CPUs, reduced to the player count
only when there are fewer than 3 players (and more than 0). -/
def numWorkersOptimized (numCPU numPlayers : Nat) : Nat :=
  if numPlayers < 3 ∧ numPlayers > 0 then numPlayers else numCPU

/-- Worker sizing of `processVoiceDataParallel` in the variant at part_001
lines 1105-1110: never exceed the number of CPUs or the number of players. -/
def numWorkersLegacy (numCPU numPlayers : Nat) : Nat :=
  if numPlayers < numCPU then numPlayers else numCPU

/-! ## Run identity and dedup (src/main.go)

`handleUpload` and `handleDownloadFromURL` both mint the run identity as
`fmt.Sprintf("demo_%d", time.Now().UnixNano())` and then process the
recording unconditionally; neither consults the metadata store or any index
of existing runs before processing. -/

/-- `tempFileLifetime = 5 * time.Minute`, in nanoseconds (the same clock
unit as `time.Now().UnixNano()`). -/
def tempFileLifetime : Nat := 5 * 60 * 1000000000

/-- The run identity minted for an accepted recording:
`fmt.Sprintf("demo_%d", time.Now().UnixNano())`. -/
def demoIDFor (nowUnixNano : Nat) : String :=
  "demo_" ++ Nat.repr nowUnixNano

/-- `strings.TrimRight(url, "/")` on character lists. -/
def trimRightSlash (l : List Char) : List Char :=
  (l.reverse.dropWhile fun c => c = '/').reverse

/-- `strings.Split` on character lists, fuel-indexed (the fuel is always
instantiated with the length of the list, which suffices for the non-empty
separators used here, so the zero-fuel branch is unreachable). -/
def splitOnGo (sep : List Char) : Nat → List Char → List Char → List (List Char)
  | 0, acc, l => [acc.reverse ++ l]
  | _ + 1, acc, [] => [acc.reverse]
  | fuel + 1, acc, c :: cs =>
    if sep.isPrefixOf (c :: cs) then
      acc.reverse :: splitOnGo sep fuel [] ((c :: cs).drop sep.length)
    else
      splitOnGo sep fuel (c :: acc) cs

/-- `strings.Split(s, sep)` on character lists. -/
def splitGo (sep l : List Char) : List (List Char) :=
  splitOnGo sep l.length [] l

/-- `extractMatchIDFromURL` (main.go): trim trailing slashes, split on
`"room/"`, take the second part, cut it at the next `"/"`, and strip a
leading `"1-"`. Empty result means "no match id". -/
def extractMatchIDFromURL (url : String) : String :=
  let u := trimRightSlash url.data
  let parts := splitGo ("room/".data) u
  if parts.length < 2 then
    ""
  else
    let roomPart := parts.getD 1 []
    let roomPart := (splitGo ("/".data) roomPart).headD []
    if ("1-".data).isPrefixOf roomPart then
      String.mk (roomPart.drop 2)
    else
      String.mk roomPart

/-- `handleDownloadFromURL` (main.go): reject a URL without a match id;
otherwise mint a fresh run identity from the submission clock and process
unconditionally — the existing-run registry is never consulted. Returns the
identity of the run the request resolves to (`none` = HTTP error). -/
def handleDownloadFromURL (matchroomURL : String) (nowUnixNano : Nat) :
    Option String :=
  let matchID := extractMatchIDFromURL matchroomURL
  if matchID = "" then
    none
  else
    some (demoIDFor nowUnixNano)

/-- `handleUpload` (main.go): every upload mints a fresh run identity from
the submission clock and processes unconditionally. -/
def handleUpload (nowUnixNano : Nat) : String :=
  demoIDFor nowUnixNano

/-! ## Framing lemmas -/

theorem int16OfBytes_encode (L : Nat) (h : L < 32768) :
    int16OfBytes (L % 256) (L / 256 % 256) = (L : Int) := by
  have hu : L % 256 % 256 + 256 * (L / 256 % 256 % 256) = L := by omega
  simp only [int16OfBytes, hu]
  have : L < 32768 := h
  simp [this]

theorem uint16OfBytes_encode (cf : Nat) (h : cf < 65536) :
    uint16OfBytes (cf % 256) (cf / 256 % 256) = cf := by
  simp only [uint16OfBytes]
  omega

/-- Parsing the encoding of a well-formed record recovers the record and
leaves exactly the trailing bytes. -/
theorem parseRecord_recordBytes (payload : List Nat) (cf : Nat) (rest : List Nat)
    (hl : payload.length < 32768) (hcf : cf < 65536) :
    parseRecord (recordBytes payload cf ++ rest) =
      .record cf payload rest := by
  have h1 := int16OfBytes_encode payload.length hl
  have h2 := uint16OfBytes_encode cf hcf
  have h3 : ¬((payload.length : Int) = -1) := by omega
  have h4 : ¬((payload.length : Int) < 0) := by omega
  simp only [recordBytes, List.cons_append, parseRecord, h1, h2, h3, if_false, h4,
    Int.toNat_natCast]
  have h5 : ¬(0 < payload.length ∧ payload ++ rest = []) := by
    rintro ⟨hp, he⟩
    rcases List.append_eq_nil.mp he with ⟨he1, _⟩
    simp [he1] at hp
  have h6 : ¬((payload ++ rest).length < payload.length) := by
    simp [List.length_append]
  simp only [h5, if_false, h6, List.take_left, List.drop_left]

/-- A record whose two length bytes decode to `-1` is the end-of-stream
marker, whatever follows. -/
theorem parseRecord_reset {b0 b1 : Nat} (h : int16OfBytes b0 b1 = -1)
    (junk : List Nat) : parseRecord (b0 :: b1 :: junk) = .reset := by
  simp only [parseRecord, h, if_true]

/-- A record whose length bytes decode to a negative value other than `-1`,
followed by at least the two frame-index bytes, reaches the negative
allocation. -/
theorem parseRecord_negLen {b0 b1 : Nat} (f0 f1 : Nat) (rest : List Nat)
    (hneg : int16OfBytes b0 b1 < 0) (hne : int16OfBytes b0 b1 ≠ -1) :
    parseRecord (b0 :: b1 :: f0 :: f1 :: rest) = .negLen := by
  simp only [parseRecord, hne, if_false, hneg, if_true]

theorem decodeLoop_nil (st : Nat) : OpusDecoder.decodeLoop st [] = .ok [] st := by
  unfold OpusDecoder.decodeLoop
  simp

theorem decodeLoop_reset {buf : List Nat} (h : parseRecord buf = .reset)
    (st : Nat) : OpusDecoder.decodeLoop st buf = .ok [] 0 := by
  have hne : buf ≠ [] := by
    intro he
    rw [he] at h
    simp [parseRecord] at h
  unfold OpusDecoder.decodeLoop
  rw [dif_neg hne]
  split <;> rename_i heq <;> rw [h] at heq <;> simp at heq

theorem decodeLoop_negLen {buf : List Nat} (h : parseRecord buf = .negLen)
    (st : Nat) : OpusDecoder.decodeLoop st buf = .panicked := by
  have hne : buf ≠ [] := by
    intro he
    rw [he] at h
    simp [parseRecord] at h
  unfold OpusDecoder.decodeLoop
  rw [dif_neg hne]
  split <;> rename_i heq <;> rw [h] at heq <;> simp at heq

theorem decodeLoop_record {buf : List Nat} {cf : Nat} {chunk rest : List Nat}
    (h : parseRecord buf = .record cf chunk rest) (st : Nat) :
    OpusDecoder.decodeLoop st buf =
      prependOutput (OpusDecoder.frameStep st cf chunk).2
        (OpusDecoder.decodeLoop (OpusDecoder.frameStep st cf chunk).1 rest) := by
  have hne : buf ≠ [] := by
    intro he
    rw [he] at h
    simp [parseRecord] at h
  conv_lhs => unfold OpusDecoder.decodeLoop
  rw [dif_neg hne]
  split
  all_goals rename_i heq
  all_goals rw [h] at heq
  all_goals cases heq
  cases hd : OpusDecoder.decodeLoop (OpusDecoder.frameStep st cf chunk).1 rest <;>
    simp only [hd, prependOutput]

/-- Gap branch of the frame comparison: the state is kept and
`min(gap, 10)` concealment frames are produced. -/
theorem frameStep_gap {st cf : Nat} (chunk : List Nat) (h : st < cf) :
    OpusDecoder.frameStep st cf chunk =
      (st, List.replicate (min (cf - st) 10) PCMBlock.concealed) := by
  simp only [OpusDecoder.frameStep, OpusDecoder.decodeLoss]
  rw [if_pos (Nat.le_of_lt h), if_neg (by omega)]

/-- Normal branch: decode the payload and advance the expected index. -/
theorem frameStep_eq (st : Nat) (chunk : List Nat) :
    OpusDecoder.frameStep st st chunk =
      ((st + 1) % 65536, [PCMBlock.decoded chunk]) := by
  simp [OpusDecoder.frameStep, OpusDecoder.decodeSteamChunk]

/-- Stale branch: nothing is produced and the state is kept. -/
theorem frameStep_stale {st cf : Nat} (chunk : List Nat) (h : cf < st) :
    OpusDecoder.frameStep st cf chunk = (st, []) := by
  simp only [OpusDecoder.frameStep]
  rw [if_neg (by omega)]

theorem prependOutput_nil (o : DecodeOutcome) : prependOutput [] o = o := by
  cases o <;> simp [prependOutput]

/-- Processing a gap-revealing record: its payload is consumed, only
concealment frames are contributed, the state is kept, and decoding
continues on the trailing bytes. -/
theorem Decode_gap_record (st cf : Nat) (payload rest : List Nat)
    (hgap : st < cf) (hcf : cf < 65536) (hlen : payload.length < 32768) :
    OpusDecoder.Decode st (recordBytes payload cf ++ rest) =
      prependOutput (List.replicate (min (cf - st) 10) PCMBlock.concealed)
        (OpusDecoder.Decode st rest) := by
  have hp := parseRecord_recordBytes payload cf rest hlen hcf
  simp only [OpusDecoder.Decode]
  rw [decodeLoop_record hp, frameStep_gap payload hgap]

/-- Processing an in-sequence record: its payload is decoded, the expected
index advances, and decoding continues on the trailing bytes. -/
theorem Decode_eq_record (st : Nat) (payload rest : List Nat)
    (hst : st < 65536) (hlen : payload.length < 32768) :
    OpusDecoder.Decode st (recordBytes payload st ++ rest) =
      prependOutput [PCMBlock.decoded payload]
        (OpusDecoder.Decode ((st + 1) % 65536) rest) := by
  have hp := parseRecord_recordBytes payload st rest hlen hst
  simp only [OpusDecoder.Decode]
  rw [decodeLoop_record hp, frameStep_eq st payload]

/-- Processing a stale record: it is consumed and is a complete no-op. -/
theorem Decode_stale_record (st cf : Nat) (payload rest : List Nat)
    (hstale : cf < st) (hcf : cf < 65536) (hlen : payload.length < 32768) :
    OpusDecoder.Decode st (recordBytes payload cf ++ rest) =
      OpusDecoder.Decode st rest := by
  have hp := parseRecord_recordBytes payload cf rest hlen hcf
  simp only [OpusDecoder.Decode]
  rw [decodeLoop_record hp, frameStep_stale payload hstale]
  exact prependOutput_nil _

/-! ## Claim theorems -/

/-- C1: in `OpusDecoder.Decode`, a record whose frame index reveals a gap of
size `g = cf - st ≥ 1` appends exactly `min(g, 10)` concealed frames to the
output: `g` frames for every `1 ≤ g ≤ 10`, and exactly 10 frames (the
concealment cap) for every `g > 10`. -/
theorem C1_gap_inserts_min_g_ten_concealed_frames
    (st cf : Nat) (payload : List Nat)
    (hgap : st < cf) (hcf : cf < 65536) (hlen : payload.length < 32768) :
    OpusDecoder.Decode st (recordBytes payload cf) =
      .ok (List.replicate (min (cf - st) 10) PCMBlock.concealed) st := by
  have h := Decode_gap_record st cf payload [] hgap hcf hlen
  rw [List.append_nil] at h
  rw [h]
  simp only [OpusDecoder.Decode, decodeLoop_nil, prependOutput, List.append_nil]

/-- Witness for C1: a gap of size 3 yields exactly 3 concealed frames, and a
gap of size 25 is capped at exactly 10. -/
theorem C1_witness :
    (0 < 3 ∧ OpusDecoder.Decode 0 (recordBytes [6] 3) =
      .ok (List.replicate 3 PCMBlock.concealed) 0) ∧
    (5 < 30 ∧ OpusDecoder.Decode 5 (recordBytes [] 30) =
      .ok (List.replicate 10 PCMBlock.concealed) 5) := by
  refine ⟨⟨by decide, ?_⟩, ⟨by decide, ?_⟩⟩
  · have h := C1_gap_inserts_min_g_ten_concealed_frames 0 3 [6]
      (by decide) (by decide) (by decide)
    simpa using h
  · have h := C1_gap_inserts_min_g_ten_concealed_frames 5 30 []
      (by decide) (by decide) (by decide)
    simpa using h

/-- C2: after a gap record is concealed, the per-speaker expected frame
index (the `currentFrame` field) is unchanged: the per-record transition
keeps the state, and decoding the gap record returns with the state it
started from. -/
theorem C2_gap_leaves_currentFrame_unchanged
    (st cf : Nat) (payload : List Nat)
    (hgap : st < cf) (hcf : cf < 65536) (hlen : payload.length < 32768) :
    (OpusDecoder.frameStep st cf payload).1 = st ∧
    ∃ out, OpusDecoder.Decode st (recordBytes payload cf) = .ok out st := by
  constructor
  · rw [frameStep_gap payload hgap]
  · refine ⟨List.replicate (min (cf - st) 10) PCMBlock.concealed, ?_⟩
    have h := Decode_gap_record st cf payload [] hgap hcf hlen
    rw [List.append_nil] at h
    rw [h]
    simp only [OpusDecoder.Decode, decodeLoop_nil, prependOutput, List.append_nil]

/-- Witness for C2 at the gap record with expected index 0 and arriving
index 7. -/
theorem C2_witness :
    0 < 7 ∧ (OpusDecoder.frameStep 0 7 [3]).1 = 0 ∧
    ∃ out, OpusDecoder.Decode 0 (recordBytes [3] 7) = .ok out 0 := by
  have h := C2_gap_leaves_currentFrame_unchanged 0 7 [3]
    (by decide) (by decide) (by decide)
  exact ⟨by decide, h.1, h.2⟩

/-- C3: an end-of-stream marker (`length == -1`, bytes `255, 255`) resets
the expected frame index to 0 and stops processing of the remaining bytes
of the RawChunk; a record with frame index 0 processed after such a reset
is handled as the normal case: decoded, with the expected index advanced
to 1 — not as a gap. -/
theorem C3_reset_then_frame_zero_is_normal
    (st : Nat) (junk payload : List Nat) (hlen : payload.length < 32768) :
    OpusDecoder.Decode st (255 :: 255 :: junk) = .ok [] 0 ∧
    OpusDecoder.Decode 0 (recordBytes payload 0) =
      .ok [PCMBlock.decoded payload] 1 := by
  constructor
  · have hr : int16OfBytes 255 255 = -1 := by decide
    simp only [OpusDecoder.Decode]
    exact decodeLoop_reset (parseRecord_reset hr junk) st
  · have h := Decode_eq_record 0 payload [] (by omega) hlen
    rw [List.append_nil] at h
    rw [h]
    simp [OpusDecoder.Decode, decodeLoop_nil, prependOutput]

/-- Witness for C3 with a nonempty suppressed tail after the marker. -/
theorem C3_witness :
    OpusDecoder.Decode 9 (255 :: 255 :: [1, 2, 3]) = .ok [] 0 ∧
    OpusDecoder.Decode 0 (recordBytes [4] 0) =
      .ok [PCMBlock.decoded [4]] 1 :=
  C3_reset_then_frame_zero_is_normal 9 [1, 2, 3] [4] (by decide)

/-- C4: a record whose frame index is strictly below the expected index
contributes zero PCM output and leaves the decoder state untouched — the
decode of the whole buffer is as if the stale record were absent. -/
theorem C4_stale_record_discarded_silently
    (st cf : Nat) (payload rest : List Nat)
    (hstale : cf < st) (hcf : cf < 65536) (hlen : payload.length < 32768) :
    OpusDecoder.Decode st (recordBytes payload cf ++ rest) =
      OpusDecoder.Decode st rest :=
  Decode_stale_record st cf payload rest hstale hcf hlen

/-- Witness for C4: a stale record (index 2 against expected 5) followed by
an in-sequence record is decoded exactly like the in-sequence record
alone. -/
theorem C4_witness :
    2 < 5 ∧
    OpusDecoder.Decode 5 (recordBytes [8, 9] 2 ++ recordBytes [1] 5) =
      OpusDecoder.Decode 5 (recordBytes [1] 5) :=
  ⟨by decide, C4_stale_record_discarded_silently 5 2 [8, 9] (recordBytes [1] 5)
    (by decide) (by decide) (by decide)⟩

/-- C9: a record whose declared 16-bit length is negative but not `-1`
(for example `-2`) is not rejected with an error: only `-1` is checked
before the payload buffer is allocated, so `make([]byte, chunkLen)` is
reached with a negative size and the decoder panics. -/
theorem C9_negative_length_reaches_negative_make_and_panics
    (st b0 b1 f0 f1 : Nat) (rest : List Nat)
    (hneg : int16OfBytes b0 b1 < 0) (hne : int16OfBytes b0 b1 ≠ -1) :
    OpusDecoder.Decode st (b0 :: b1 :: f0 :: f1 :: rest) = .panicked := by
  simp only [OpusDecoder.Decode]
  exact decodeLoop_negLen (parseRecord_negLen f0 f1 rest hneg hne) st

/-- Witness for C9: the length bytes `254, 255` decode to `-2`. -/
theorem C9_witness :
    int16OfBytes 254 255 < 0 ∧ int16OfBytes 254 255 ≠ -1 ∧
    OpusDecoder.Decode 0 (254 :: 255 :: 0 :: 0 :: []) = .panicked :=
  ⟨by decide, by decide,
    C9_negative_length_reaches_negative_make_and_panics 0 254 255 0 0 []
      (by decide) (by decide)⟩

/-- C10: in the gap branch, the compressed payload carried by the
gap-revealing record is consumed from the buffer but never decoded: the
record contributes exactly the synthesized concealment frames — the result
does not depend on the payload bytes at all — and decoding continues with
the bytes after the record. -/
theorem C10_gap_record_payload_never_decoded
    (st cf : Nat) (payload rest : List Nat)
    (hgap : st < cf) (hcf : cf < 65536) (hlen : payload.length < 32768) :
    OpusDecoder.Decode st (recordBytes payload cf ++ rest) =
      prependOutput (List.replicate (min (cf - st) 10) PCMBlock.concealed)
        (OpusDecoder.Decode st rest) :=
  Decode_gap_record st cf payload rest hgap hcf hlen

/-- Witness for C10: the real payload `[7]` of the gap record contributes
nothing; only the two concealed frames precede the decode of the following
record. -/
theorem C10_witness :
    0 < 2 ∧
    OpusDecoder.Decode 0 (recordBytes [7] 2 ++ recordBytes [4] 0) =
      prependOutput (List.replicate (min 2 10) PCMBlock.concealed)
        (OpusDecoder.Decode 0 (recordBytes [4] 0)) :=
  ⟨by decide, C10_gap_record_payload_never_decoded 0 2 [7] (recordBytes [4] 0)
    (by decide) (by decide) (by decide)⟩

/-- Counterexample for C5 as stated: the RawChunk `[9,0,0,0,7]` declares a
payload length of 9 with only one byte remaining — a malformed record — and
`OpusDecoder.Decode` does abort that RawChunk with `ErrInvalidVoicePacket`;
but the speaker's job does not abort with an error: it logs the error,
skips that RawChunk, decodes the following RawChunk normally and completes
successfully (the Go function returns `nil`). -/
theorem C5_counterexample :
    OpusDecoder.Decode 0 [9, 0, 0, 0, 7] = .err .invalidVoicePacket 0 ∧
    convertAudioDataToWavFilesOptimized
        [[9, 0, 0, 0, 7], [2, 0, 0, 0, 97, 98]] =
      some ([PCMBlock.decoded [97, 98]], 1) := by
  constructor
  · simp [OpusDecoder.Decode, OpusDecoder.decodeLoop, parseRecord,
      int16OfBytes, uint16OfBytes]
  · simp [convertAudioDataToWavFilesOptimized, convertLoop, DecodeChunk,
      OpusDecoder.Decode, OpusDecoder.decodeLoop, parseRecord, int16OfBytes,
      uint16OfBytes, OpusDecoder.frameStep, OpusDecoder.decodeSteamChunk]

/-- C5 amended: a malformed record (declared length exceeding the remaining
bytes) is a fatal decode error for that RawChunk only: `OpusDecoder.Decode`
aborts that RawChunk with an error, and the speaker's job logs the error,
skips that RawChunk and continues with the remaining RawChunks, completing
without a job-level error; jobs for other speakers are unaffected — each
speaker's result is a function of that speaker's own chunk list alone. -/
theorem C5_malformed_chunk_is_logged_and_skipped
    (st st' : Nat) (data : List Nat) (ds : List (List Nat)) (e : DecodeError)
    (h : OpusDecoder.Decode st data = .err e st')
    (pre post : List (String × List (List Nat))) (sid : String)
    (dss : List (List Nat)) :
    convertLoop st (data :: ds) =
      (convertLoop st' ds).map (fun p => (p.1, p.2 + 1)) ∧
    processVoiceDataParallel (pre ++ (sid, dss) :: post) =
      processVoiceDataParallel pre ++
        (sid, convertAudioDataToWavFilesOptimized dss) ::
          processVoiceDataParallel post := by
  constructor
  · have hd : data ≠ [] := by
      rintro rfl
      rw [OpusDecoder.Decode, decodeLoop_nil] at h
      cases h
    have hne : data.isEmpty = false := by
      cases data
      · exact absurd rfl hd
      · rfl
    simp only [convertLoop, DecodeChunk, hne, Bool.false_eq_true, if_false, h]
  · simp [processVoiceDataParallel]

/-- Witness for C5 amended, at a malformed first RawChunk followed by one
good RawChunk, with one sibling speaker. -/
theorem C5_witness :
    OpusDecoder.Decode 0 [9, 0, 0, 0, 7] = .err .invalidVoicePacket 0 ∧
    convertLoop 0 [[9, 0, 0, 0, 7], [2, 0, 0, 0, 97, 98]] =
      (convertLoop 0 [[2, 0, 0, 0, 97, 98]]).map (fun p => (p.1, p.2 + 1)) ∧
    processVoiceDataParallel ([] ++ ("speakerA", [[2, 0, 0, 0, 97, 98]]) :: []) =
      processVoiceDataParallel [] ++
        ("speakerA", convertAudioDataToWavFilesOptimized [[2, 0, 0, 0, 97, 98]]) ::
          processVoiceDataParallel [] := by
  have h : OpusDecoder.Decode 0 [9, 0, 0, 0, 7] = .err .invalidVoicePacket 0 := by
    simp [OpusDecoder.Decode, OpusDecoder.decodeLoop, parseRecord,
      int16OfBytes, uint16OfBytes]
  refine ⟨h, ?_, ?_⟩
  · exact (C5_malformed_chunk_is_logged_and_skipped 0 0 [9, 0, 0, 0, 7]
      [[2, 0, 0, 0, 97, 98]] .invalidVoicePacket h [] [] "speakerA" []).1
  · exact (C5_malformed_chunk_is_logged_and_skipped 0 0 [9, 0, 0, 0, 7]
      [[2, 0, 0, 0, 97, 98]] .invalidVoicePacket h [] []
      "speakerA" [[2, 0, 0, 0, 97, 98]]).2

/-- Counterexample for C6: two submissions of the same matchroom URL — the
same derived match identifier `"abc123"` — at nanosecond timestamps
1000000000 and 2000000000, one second apart and well inside the 5-minute
TTL window, resolve to two distinct run identities: no dedup occurs. -/
theorem C6_counterexample :
    extractMatchIDFromURL "https://www.faceit.com/en/cs2/room/1-abc123" =
      "abc123" ∧
    2000000000 - 1000000000 < tempFileLifetime ∧
    handleDownloadFromURL "https://www.faceit.com/en/cs2/room/1-abc123"
        1000000000 = some "demo_1000000000" ∧
    handleDownloadFromURL "https://www.faceit.com/en/cs2/room/1-abc123"
        2000000000 = some "demo_2000000000" ∧
    ("demo_1000000000" : String) ≠ "demo_2000000000" := by
  refine ⟨by decide, by decide, by decide, by decide, by decide⟩

/-- C6 amended: no dedup lookup exists — every accepted submission mints
the fresh run identity `demo_<submission time>` and is processed
unconditionally, so two submissions carrying the same derived match
identifier inside the TTL window produce two runs instead of resolving to
one. -/
theorem C6_every_submission_creates_fresh_run
    (url : String) (now : Nat) (h : extractMatchIDFromURL url ≠ "") :
    handleDownloadFromURL url now = some (demoIDFor now) ∧
    handleUpload now = demoIDFor now := by
  constructor
  · simp only [handleDownloadFromURL, h, if_false]
  · rfl

/-- Witness for C6 amended at a concrete matchroom URL and clock value. -/
theorem C6_witness :
    extractMatchIDFromURL "https://www.faceit.com/en/cs2/room/1-abc123" ≠ "" ∧
    handleDownloadFromURL "https://www.faceit.com/en/cs2/room/1-abc123" 42 =
      some (demoIDFor 42) ∧
    handleUpload 42 = demoIDFor 42 := by
  have h : extractMatchIDFromURL
      "https://www.faceit.com/en/cs2/room/1-abc123" ≠ "" := by decide
  exact ⟨h, C6_every_submission_creates_fresh_run
    "https://www.faceit.com/en/cs2/room/1-abc123" 42 h⟩

/-- Counterexample for C7: with 8 processing units and 4 speakers with
data, the optimized pipeline variant starts 8 workers — more workers than
speakers with work — where the claimed sizing requires `min(8, 4) = 4`. -/
theorem C7_counterexample :
    numWorkersOptimized 8 4 = 8 ∧ 4 < numWorkersOptimized 8 4 := by
  decide

/-- C7 amended: the variant at part_001 lines 1105-1110 sizes the pool as
the claim states — `min(speakers, CPUs)`, never more workers than speakers
and never zero when work exists — while the optimized variants
(part_001 lines 161-169 and 711-715) reduce below the CPU count only for
fewer than 3 speakers, so with 3 or more speakers they start one worker per
CPU, which can exceed the number of speakers with work. -/
theorem C7_worker_sizing (cpus n : Nat) (h : 0 < n) :
    numWorkersLegacy cpus n = min n cpus ∧
    (3 ≤ n → numWorkersOptimized cpus n = cpus) ∧
    (n < 3 → numWorkersOptimized cpus n = n) := by
  refine ⟨?_, ?_, ?_⟩
  · simp only [numWorkersLegacy]
    split <;> omega
  · intro h3
    simp only [numWorkersOptimized]
    rw [if_neg (by omega)]
  · intro h3
    simp only [numWorkersOptimized]
    rw [if_pos ⟨h3, h⟩]

/-- Witness for C7 amended at 8 CPUs and 4 speakers. -/
theorem C7_witness :
    0 < 4 ∧
    (numWorkersLegacy 8 4 = min 4 8 ∧
     (3 ≤ 4 → numWorkersOptimized 8 4 = 8) ∧
     (4 < 3 → numWorkersOptimized 8 4 = 4)) :=
  ⟨by decide, C7_worker_sizing 8 4 (by decide)⟩

/-- C8: for an unchunked-format (OPUS) speaker, the decode-frame operation
is invoked exactly once per RawChunk — the job's output is the per-chunk
map of the package-level `decoder.Decode` — and loss concealment is never
invoked: no concealed block ever appears in the output, regardless of chunk
content or ordering. -/
theorem C8_unchunked_decodes_once_per_chunk_never_conceals
    (datas : List (List Nat)) :
    opusToWavOptimized datas = datas.map decoder.Decode ∧
    PCMBlock.concealed ∉ opusToWavOptimized datas := by
  induction datas with
  | nil => simp [opusToWavOptimized]
  | cons d ds ih =>
    refine ⟨by simp [opusToWavOptimized, ih.1], ?_⟩
    simp only [opusToWavOptimized, List.mem_cons, decoder.Decode]
    rintro (hc | hc)
    · cases hc
    · exact ih.2 hc

end Demovoice
